import Mathlib

/-
Shallow embedding of the mutolaa-bot reading-habit service
(src/api.py: FastAPI endpoints over a relational store; src/bot.py: the
Telegram front-end commands and the announcement dispatch job).

Encoding conventions:
* Calendar dates at day granularity are embedded in two equivalent ways,
  matching how Python's `datetime` behaves on the operations the code uses:
  - as proleptic-Gregorian ordinals (`Int`, `date.toordinal` semantics) for
    weekday arithmetic and date comparison (`get_week_saturday_to_friday`,
    log-date window filters);
  - as civil triples `CivilDate` (year, month, day) for `replace(day=1)` and
    `timedelta` day stepping (`get_month_range`), where adding one day is the
    usual calendar successor.
  `toOrdinal` converts a civil date to its ordinal exactly as Python's
  `date.toordinal` does.
* The SQLAlchemy store is a record of lists plus autoincrement counters;
  primary-key lookups and `.first()` become `List.find?` in insertion order,
  row mutation of the found row becomes replacement of the first matching
  element, SQL `ORDER BY k DESC`/`LIMIT n` becomes a stable descending
  insertion sort followed by `take`.
* Python floats produced by `/` in `get_stats` are modelled exactly as `Rat`.
* Endpoint handlers that raise HTTPException before committing leave the
  store unchanged, so they are total functions returning the input store.
* The bot commands are pure functions from their (already tokenised)
  argument strings to the replies they emit and the API calls they issue;
  reply texts are abstracted to tags since only their identity matters.
-/

/-! ## Calendar model -/

structure CivilDate where
  year : Int
  month : Nat
  day : Nat
deriving DecidableEq

/-- Gregorian leap-year rule, as in Python's `calendar.isleap`. -/
def isLeap (y : Int) : Bool :=
  y % 4 == 0 && (y % 100 != 0 || y % 400 == 0)

/-- Number of days in month `m` of year `y` (months are 1-based). -/
def monthLength (y : Int) (m : Nat) : Nat :=
  if m = 2 then (if isLeap y then 29 else 28)
  else if m = 4 || m = 6 || m = 9 || m = 11 then 30
  else 31

/-- Calendar successor of a civil date (`+ timedelta(days=1)`). -/
def nextDay (c : CivilDate) : CivilDate :=
  if c.day < monthLength c.year c.month then { c with day := c.day + 1 }
  else if c.month < 12 then { year := c.year, month := c.month + 1, day := 1 }
  else { year := c.year + 1, month := 1, day := 1 }

/-- Calendar predecessor of a civil date (`- timedelta(days=1)`). -/
def prevDay (c : CivilDate) : CivilDate :=
  if 1 < c.day then { c with day := c.day - 1 }
  else if 1 < c.month then
    { year := c.year, month := c.month - 1, day := monthLength c.year (c.month - 1) }
  else { year := c.year - 1, month := 12, day := 31 }

/-- Add `n` days to a civil date (`+ timedelta(days=n)`). -/
def addDays (n : Nat) (c : CivilDate) : CivilDate := nextDay^[n] c

/-- Days in the months of year `y` strictly before month `m`. -/
def daysBeforeMonth (y : Int) (m : Nat) : Nat :=
  (List.range (m - 1)).foldl (fun acc i => acc + monthLength y (i + 1)) 0

/-- Python's `date.toordinal`: day 1 is 0001-01-01 of the proleptic
Gregorian calendar. -/
def toOrdinal (c : CivilDate) : Int :=
  365 * (c.year - 1) + (c.year - 1).ediv 4 - (c.year - 1).ediv 100
    + (c.year - 1).ediv 400 + (daysBeforeMonth c.year c.month : Int) + (c.day : Int)

/-- Python's `date.weekday` on an ordinal: 0 = Monday .. 6 = Sunday
(ordinal 1, 0001-01-01, is a Monday). -/
def pyWeekday (o : Int) : Int := (o + 6) % 7

/-- src/api.py `get_month_range`: `start = dt.replace(day=1)`,
`next_month = (start + timedelta(days=32)).replace(day=1)`,
`end = next_month - timedelta(days=1)`. -/
def get_month_range (dt : CivilDate) : CivilDate × CivilDate :=
  let start := { dt with day := 1 }
  let next_month := { addDays 32 start with day := 1 }
  (start, prevDay next_month)

/-- src/api.py `get_week_saturday_to_friday`, with `today` given as the
ordinal of the current date:
`delta_to_saturday = (today.weekday() - 5) % 7`,
`start = today - delta_to_saturday`, `end = start + 6`. -/
def get_week_saturday_to_friday (today : Int) : Int × Int :=
  let delta_to_saturday := (pyWeekday today - 5) % 7
  let start := today - delta_to_saturday
  (start, start + 6)

/-! ## Store model (SQLAlchemy tables of src/api.py) -/

structure User where
  id : Nat
  telegram_id : Int
  username : Option String
  first_name : String
  last_name : Option String
  status : String
  daily_goal : Int
  monthly_goal : Int
  reminder_time : String
  timezone : String
  current_streak : Int
  longest_streak : Int
  total_pages : Int
  books_completed : Int
  join_date : Int
  last_active : Int
deriving DecidableEq

structure ReadingLog where
  id : Nat
  user_id : Nat
  date : Int
  pages : Int
deriving DecidableEq

structure Announcement where
  id : Nat
  message : String
  message_type : String
  target_audience : String
  pin_message : Nat
  notify_all : Nat
  created_at : Int
  sent_at : Option Int
deriving DecidableEq

structure Store where
  users : List User
  reading_logs : List ReadingLog
  announcements : List Announcement
  next_user_id : Nat
  next_log_id : Nat
  next_ann_id : Nat
deriving DecidableEq

structure UserCreate where
  telegram_id : Int
  username : Option String
  first_name : String
  last_name : Option String
deriving DecidableEq

/-- Replace the first element satisfying `p` by its image under `f`
(ORM mutation of the row returned by `.first()`). -/
def replaceFirst {α : Type} (p : α → Bool) (f : α → α) : List α → List α
  | [] => []
  | x :: xs => if p x then f x :: xs else x :: replaceFirst p f xs

/-- Stable insertion of `r` into a list sorted descending by `key`. -/
def insertByDesc {α : Type} (key : α → Int) (r : α) : List α → List α
  | [] => [r]
  | y :: ys => if key r < key y then y :: insertByDesc key r ys else r :: y :: ys

/-- Stable sort, descending by `key` (model of SQL `ORDER BY key DESC`;
ties keep insertion order, a deterministic refinement of the unspecified
SQL tie order). -/
def sortByDesc {α : Type} (key : α → Int) : List α → List α
  | [] => []
  | x :: xs => insertByDesc key x (sortByDesc key xs)

/-! ## Users endpoints -/

/-- src/api.py `create_user` (POST /api/users): return the existing row for
this telegram id if there is one, otherwise insert a row with the column
defaults. Returns the (existing or new) user and the resulting store. -/
def create_user (db : Store) (user : UserCreate) (now : Int) : User × Store :=
  match db.users.find? (fun u => u.telegram_id == user.telegram_id) with
  | some existing => (existing, db)
  | none =>
    let new_user : User :=
      { id := db.next_user_id, telegram_id := user.telegram_id,
        username := user.username, first_name := user.first_name,
        last_name := user.last_name, status := "active", daily_goal := 50,
        monthly_goal := 1500, reminder_time := "20:00", timezone := "GMT+5",
        current_streak := 0, longest_streak := 0, total_pages := 0,
        books_completed := 0, join_date := now, last_active := now }
    (new_user, { db with users := db.users ++ [new_user],
                         next_user_id := db.next_user_id + 1 })

structure UserOut where
  id : Nat
  telegram_id : Int
  username : Option String
  first_name : String
  status : String
  total_pages : Int
deriving DecidableEq

/-- Substring test on `List Char` (SQL `LIKE` / `.contains`). -/
def charsContain (needle : List Char) : List Char → Bool
  | [] => needle.isEmpty
  | c :: rest => needle.isPrefixOf (c :: rest) || charsContain needle rest

def strContains (hay needle : String) : Bool := charsContain needle.toList hay.toList

/-- src/api.py `list_users` (GET /api/users): optional name/username search,
optional status filter, ordered by id descending, limited (default 100). -/
def list_users (search status : String) (limit : Nat) (db : Store) : List UserOut :=
  let q1 := if search == "" then db.users else
    db.users.filter (fun u =>
      strContains u.first_name search ||
        (match u.username with
         | some un => strContains un search
         | none => false))
  let q2 := if status == "" then q1 else q1.filter (fun u => u.status == status)
  ((sortByDesc (fun u => (u.id : Int)) q2).take limit).map
    (fun u => { id := u.id, telegram_id := u.telegram_id, username := u.username,
                first_name := u.first_name, status := u.status,
                total_pages := u.total_pages })

/-! ## Reading-log endpoints -/

/-- src/api.py `create_reading_log` (POST /api/reading-logs): 404 (no state
change) when the telegram id is unknown; otherwise insert the log row and add
its pages to the owner's running `total_pages`. -/
def create_reading_log (db : Store) (date pages : Int) (telegram_id : Int)
    (now : Int) : Store :=
  match db.users.find? (fun u => u.telegram_id == telegram_id) with
  | none => db
  | some user =>
    let new_log : ReadingLog :=
      { id := db.next_log_id, user_id := user.id, date := date, pages := pages }
    { db with
      reading_logs := db.reading_logs ++ [new_log],
      next_log_id := db.next_log_id + 1,
      users := db.users.map (fun u =>
        if u.id == user.id then
          { u with total_pages := u.total_pages + pages, last_active := now }
        else u) }

/-- src/api.py `update_reading_log` (PUT /api/reading-logs/{date}): 404 (no
state change) when the user or the day's first log is missing; otherwise set
that log's pages and adjust the running total by the delta. -/
def update_reading_log (db : Store) (date pages : Int) (telegram_id : Int) : Store :=
  match db.users.find? (fun u => u.telegram_id == telegram_id) with
  | none => db
  | some user =>
    match db.reading_logs.find? (fun l => l.user_id == user.id && l.date == date) with
    | none => db
    | some log =>
      { db with
        users := db.users.map (fun u =>
          if u.id == user.id then
            { u with total_pages := u.total_pages - log.pages + pages }
          else u),
        reading_logs := replaceFirst (fun l => l.user_id == user.id && l.date == date)
          (fun l => { l with pages := pages }) db.reading_logs }

/-- src/api.py `delete_reading_log` (DELETE /api/reading-logs/{date}): 404 (no
state change) when the user or the day's first log is missing; otherwise
remove that log and subtract its pages from the running total. -/
def delete_reading_log (db : Store) (date : Int) (telegram_id : Int) : Store :=
  match db.users.find? (fun u => u.telegram_id == telegram_id) with
  | none => db
  | some user =>
    match db.reading_logs.find? (fun l => l.user_id == user.id && l.date == date) with
    | none => db
    | some log =>
      { db with
        users := db.users.map (fun u =>
          if u.id == user.id then { u with total_pages := u.total_pages - log.pages }
          else u),
        reading_logs := db.reading_logs.eraseP
          (fun l => l.user_id == user.id && l.date == date) }

/-- One front-end log operation hitting the reading-log endpoints. -/
inductive LogOp where
  | create (telegram_id : Int) (date : Int) (pages : Int) (now : Int)
  | update (telegram_id : Int) (date : Int) (pages : Int)
  | remove (telegram_id : Int) (date : Int)
deriving DecidableEq

def applyLogOp (db : Store) : LogOp → Store
  | .create tid d p now => create_reading_log db d p tid now
  | .update tid d p => update_reading_log db d p tid
  | .remove tid d => delete_reading_log db d tid

def applyLogOps (db : Store) (ops : List LogOp) : Store := ops.foldl applyLogOp db

/-- Sum of the pages of the logs owned by user id `uid`. -/
def sumPagesFor (uid : Nat) (logs : List ReadingLog) : Int :=
  ((logs.filter (fun l => l.user_id == uid)).map (fun l => l.pages)).sum

/-- The spec's total-pages invariant: every user's denormalised running total
equals the sum of that user's log pages. -/
def TotalsInv (db : Store) : Prop :=
  ∀ u ∈ db.users, u.total_pages = sumPagesFor u.id db.reading_logs

/-! ## Aggregation endpoints -/

structure LbRow where
  rank : Nat
  name : String
  pages : Int
  books : Int
deriving DecidableEq

/-- src/api.py `leaderboard` (GET /api/leaderboard): resolve the period to a
date window, inner-join users with their logs in the window, group by user
summing pages, order by that sum descending, limit, then enumerate 1-based
ranks. `today` is the civil date of `datetime.now()`. -/
def leaderboard (db : Store) (period : String) (limit : Nat)
    (today : CivilDate) : List LbRow :=
  let date_filter : Option (Int → Bool) :=
    if period == "week" then
      let p := get_week_saturday_to_friday (toOrdinal today)
      some (fun d => p.1 ≤ d && d ≤ p.2)
    else if period == "month" then
      let p := get_month_range today
      some (fun d => toOrdinal p.1 ≤ d && d ≤ toOrdinal p.2)
    else none
  let keep : ReadingLog → Bool := fun l =>
    match date_filter with
    | none => true
    | some f => f l.date
  let grouped : List (String × Int × Int) :=
    (db.users.filter (fun u =>
      db.reading_logs.any (fun l => l.user_id == u.id && keep l))).map
      (fun u => (u.first_name,
        ((db.reading_logs.filter (fun l => l.user_id == u.id && keep l)).map
          (fun l => l.pages)).sum,
        u.books_completed))
  let results := ((sortByDesc (fun r => r.2.1) grouped).take limit).enumFrom 1
  results.map (fun x =>
    { rank := x.1, name := x.2.1, pages := x.2.2.1, books := x.2.2.2 })

structure ReportRow where
  rank : Nat
  name : String
  pages : Int
  winner : Bool
deriving DecidableEq

/-- src/api.py `weekly_report` (GET /api/report/week): Saturday-Friday window
of `today`, per-user page sums descending, 1-based ranks, and
`winner = pages >= 500`. `today` is the ordinal of `datetime.now()`. -/
def weekly_report (db : Store) (today : Int) : List ReportRow :=
  let p := get_week_saturday_to_friday today
  let keep : ReadingLog → Bool := fun l => p.1 ≤ l.date && l.date ≤ p.2
  let grouped : List (String × Int) :=
    (db.users.filter (fun u =>
      db.reading_logs.any (fun l => l.user_id == u.id && keep l))).map
      (fun u => (u.first_name,
        ((db.reading_logs.filter (fun l => l.user_id == u.id && keep l)).map
          (fun l => l.pages)).sum))
  let results := (sortByDesc (fun r => r.2) grouped).enumFrom 1
  results.map (fun x =>
    { rank := x.1, name := x.2.1, pages := x.2.2,
      winner := decide ((500 : Int) ≤ x.2.2) })

structure StatsOut where
  total_users : Nat
  weekly_growth : Rat
  active_today : Nat
  total_pages : Int
  avg_pages_per_day : Rat
  books_completed : Int
deriving DecidableEq

/-- src/api.py `get_stats` (GET /api/stats). `now` is the ordinal of the
current date; datetime comparisons are at day granularity. Float division is
modelled exactly in `Rat`. -/
def get_stats (db : Store) (now : Int) : StatsOut :=
  let total_users := db.users.length
  let active_today := (db.users.filter (fun u => u.last_active == now)).length
  let total_pages := (db.users.map (fun u => u.total_pages)).sum
  let books_completed := (db.users.map (fun u => u.books_completed)).sum
  let one_week_ago := now - 7
  let new_users := (db.users.filter (fun u => one_week_ago ≤ u.join_date)).length
  let weekly_growth : Rat :=
    if 0 < total_users then (new_users : Rat) / (total_users : Rat) * 100 else 0
  let pages_last_week :=
    ((db.reading_logs.filter (fun l => one_week_ago ≤ l.date)).map
      (fun l => l.pages)).sum
  let avg_pages_per_day : Rat :=
    if pages_last_week ≠ 0 then (pages_last_week : Rat) / 7 else 0
  { total_users := total_users, weekly_growth := weekly_growth,
    active_today := active_today, total_pages := total_pages,
    avg_pages_per_day := avg_pages_per_day, books_completed := books_completed }

/-! ## Announcement endpoints and the dispatch job -/

structure AnnOut where
  id : Nat
  message : String
  created_at : Int
  sent_at : Option Int
deriving DecidableEq

/-- src/api.py `list_announcements` (GET /api/announcements): the 20 most
recently created announcements, newest first. -/
def list_announcements (db : Store) : List AnnOut :=
  ((sortByDesc (fun a => a.created_at) db.announcements).take 20).map
    (fun a => { id := a.id, message := a.message, created_at := a.created_at,
                sent_at := a.sent_at })

/-- src/api.py `mark_announcement_sent` (PUT
/api/announcements/{id}/mark-sent): set `sent_at` of the row with this id to
now (404 leaves the store unchanged, which coincides with replacing the first
match of an absent id). -/
def mark_announcement_sent (db : Store) (announcement_id : Nat) (now : Int) : Store :=
  let anns := replaceFirst (fun a => a.id == announcement_id)
    (fun a => { a with sent_at := some now }) db.announcements
  { db with announcements := anns }

/-- The fixed broadcast group chat id of src/bot.py `send_announcements`. -/
def GROUP_ID : Int := -1002184957543

/-- One outbound Telegram send attempted by the dispatch job, tagged with the
id of the announcement that caused it. -/
inductive SendEvent where
  | group (annId : Nat) (message : String)
  | user (annId : Nat) (telegram_id : Int) (message : String)
deriving DecidableEq

def sendEventAnnId : SendEvent → Nat
  | .group i _ => i
  | .user i _ _ => i

/-- Body of the announcement loop of src/bot.py `send_announcements` for one
fetched announcement: skip it when `sent_at` is set; otherwise send to the
group, then to every user returned by GET /api/users (its defaults:
no search, no status, limit 100), then mark it sent. -/
def announceStep (now : Int) (acc : List SendEvent × Store) (ann : AnnOut) :
    List SendEvent × Store :=
  if ann.sent_at.isNone then
    let users := list_users "" "" 100 acc.2
    (acc.1 ++ (SendEvent.group ann.id ann.message ::
        users.map (fun u => SendEvent.user ann.id u.telegram_id ann.message)),
     mark_announcement_sent acc.2 ann.id now)
  else acc

/-- src/bot.py `send_announcements`: one dispatch tick. Fetches the
announcement list once, then runs the loop body over it. Returns the send
events in order together with the resulting store. -/
def send_announcements (db : Store) (now : Int) : List SendEvent × Store :=
  (list_announcements db).foldl (announceStep now) ([], db)

/-! ## Bot front-end commands (src/bot.py) -/

/-- User-facing replies of the add/edit handlers, abstracted to tags (the
literal Uzbek texts carry no logic). -/
inductive Reply where
  | formatErr
  | intErr
  | rangeErr
  | futureErr
  | added (date : CivilDate) (pages : Int)
  | edited (date : CivilDate) (pages : Int)
deriving DecidableEq

/-- API requests a command handler issues. -/
inductive ApiCall where
  | postReadingLog (telegram_id : Int) (date : CivilDate) (pages : Int)
  | getUserByTelegram (telegram_id : Int)
  | putReadingLog (telegram_id : Int) (date : CivilDate) (pages : Int)
deriving DecidableEq

structure CmdResult where
  replies : List Reply
  calls : List ApiCall
deriving DecidableEq

/-- Strict `date1 < date2` on civil dates (Python date comparison). -/
def civilLt (a b : CivilDate) : Bool :=
  a.year < b.year ||
    (a.year == b.year && (a.month < b.month || (a.month == b.month && a.day < b.day)))

/-- Split a character list at every occurrence of `sep` (Python
`str.split(sep)` for a one-character separator). -/
def splitOnChar (sep : Char) : List Char → List (List Char)
  | [] => [[]]
  | c :: cs =>
    let rest := splitOnChar sep cs
    if c == sep then [] :: rest
    else
      match rest with
      | [] => [[c]]
      | g :: gs => (c :: g) :: gs

/-- Parse a non-empty all-digit character list as a natural number. -/
def digitsToNat? (cs : List Char) : Option Nat :=
  if cs.isEmpty then none
  else if cs.all (fun c => '0' ≤ c && c ≤ '9') then
    some (cs.foldl (fun acc c => acc * 10 + (c.toNat - '0'.toNat)) 0)
  else none

/-- Python `int(s)` on the strings the bot sees (optional leading minus,
then digits); `none` models the raised ValueError. -/
def strToInt? (s : String) : Option Int :=
  match s.data with
  | '-' :: rest => (digitsToNat? rest).map (fun n => -(n : Int))
  | cs => (digitsToNat? cs).map (fun n => (n : Int))

def mkValidDate (y : Int) (m d : Nat) : Option CivilDate :=
  if 1 ≤ m && m ≤ 12 && 1 ≤ d && d ≤ monthLength y m then some ⟨y, m, d⟩ else none

/-- One `strptime` attempt with day-month-year field order and the given
separator. -/
def tryDMY (sep : Char) (s : String) : Option CivilDate :=
  match splitOnChar sep s.data with
  | [ds, ms, ys] =>
    match digitsToNat? ds, digitsToNat? ms, digitsToNat? ys with
    | some d, some m, some y => mkValidDate (y : Int) m d
    | _, _, _ => none
  | _ => none

/-- One `strptime` attempt for the `%Y-%m-%d` format. -/
def tryYMD (s : String) : Option CivilDate :=
  match splitOnChar '-' s.data with
  | [ys, ms, ds] =>
    match digitsToNat? ys, digitsToNat? ms, digitsToNat? ds with
    | some y, some m, some d => mkValidDate (y : Int) m d
    | _, _, _ => none
  | _ => none

/-- src/bot.py `parse_date`: try `%d.%m.%Y`, then `%Y-%m-%d`, then
`%d/%m/%Y`; `none` models the raised ValueError. -/
def parse_date (s : String) : Option CivilDate :=
  match tryDMY '.' s with
  | some d => some d
  | none =>
    match tryYMD s with
    | some d => some d
    | none => tryDMY '/' s

/-- Tail of src/bot.py `add_command` once date and pages are known: reject
pages outside [1,500], then reject future dates, otherwise POST the log and
GET the user for the confirmation text. -/
def addWithDate (telegram_id : Int) (date : CivilDate) (pages : Int)
    (now : CivilDate) : CmdResult :=
  if pages ≤ 0 || 500 < pages then { replies := [Reply.rangeErr], calls := [] }
  else if civilLt now date then { replies := [Reply.futureErr], calls := [] }
  else
    { replies := [Reply.added date pages],
      calls := [ApiCall.postReadingLog telegram_id date pages,
                ApiCall.getUserByTelegram telegram_id] }

/-- src/bot.py `add_command` on its tokenised arguments (`now` is today's
date). A failed `parse_date` raises ValueError inside the same try block as
`int(...)`, so both failures produce the integer-format reply. -/
def add_command (telegram_id : Int) (args : List String) (now : CivilDate) :
    CmdResult :=
  match args with
  | [] => { replies := [Reply.formatErr], calls := [] }
  | [a] =>
    match strToInt? a with
    | none => { replies := [Reply.intErr], calls := [] }
    | some pages => addWithDate telegram_id now pages now
  | [a, b] =>
    match parse_date a with
    | none => { replies := [Reply.intErr], calls := [] }
    | some date =>
      match strToInt? b with
      | none => { replies := [Reply.intErr], calls := [] }
      | some pages => addWithDate telegram_id date pages now
  | _ => { replies := [Reply.formatErr], calls := [] }

/-- src/bot.py `edit_command`: exactly two arguments, date then pages; any
parsed integer page count is forwarded to PUT /api/reading-logs/{date}
without a range check. -/
def edit_command (telegram_id : Int) (args : List String) : CmdResult :=
  match args with
  | [a, b] =>
    match parse_date a with
    | none => { replies := [Reply.formatErr], calls := [] }
    | some date =>
      match strToInt? b with
      | none => { replies := [Reply.formatErr], calls := [] }
      | some pages =>
        { replies := [Reply.edited date pages],
          calls := [ApiCall.putReadingLog telegram_id date pages] }
  | _ => { replies := [Reply.formatErr], calls := [] }

/-! ## Concrete stores used by examples, witnesses and counterexamples -/

def mkUser (i : Nat) (tid : Int) (name : String) (total : Int) (books : Int) : User :=
  { id := i, telegram_id := tid, username := none, first_name := name,
    last_name := none, status := "active", daily_goal := 50,
    monthly_goal := 1500, reminder_time := "20:00", timezone := "GMT+5",
    current_streak := 0, longest_streak := 0, total_pages := total,
    books_completed := books, join_date := 0, last_active := 0 }

def mkAnn (i : Nat) (msg : String) (created : Int) (sent : Option Int) :
    Announcement :=
  { id := i, message := msg, message_type := "general", target_audience := "all",
    pin_message := 0, notify_all := 1, created_at := created, sent_at := sent }

def emptyStore : Store :=
  { users := [], reading_logs := [], announcements := [],
    next_user_id := 1, next_log_id := 1, next_ann_id := 1 }

/-- One fresh user, no logs: start state for the total-pages witness. -/
def dbW1 : Store :=
  { emptyStore with users := [mkUser 1 100 "A" 0 0], next_user_id := 2 }

def opsW1 : List LogOp :=
  [LogOp.create 100 10 30 0, LogOp.create 100 10 20 0,
   LogOp.update 100 10 7, LogOp.remove 100 10]

/-- Weekly-report example store: P read exactly 500 pages and Q exactly 499
inside the week of Wednesday 2026-01-07. -/
def dbC4 : Store :=
  { emptyStore with
    users := [mkUser 1 100 "P" 500 0, mkUser 2 200 "Q" 499 0],
    reading_logs := [⟨1, 1, toOrdinal ⟨2026, 1, 7⟩, 500⟩,
                     ⟨2, 2, toOrdinal ⟨2026, 1, 7⟩, 499⟩],
    next_user_id := 3, next_log_id := 3 }

/-- Leaderboard example store: per-user sums A:120, B:200, C:200. -/
def dbC5 : Store :=
  { emptyStore with
    users := [mkUser 1 100 "A" 120 0, mkUser 2 200 "B" 200 0,
              mkUser 3 300 "C" 200 0],
    reading_logs := [⟨1, 1, 0, 120⟩, ⟨2, 2, 0, 200⟩, ⟨3, 3, 0, 200⟩],
    next_user_id := 4, next_log_id := 4 }

/-- Store with a user whose 2026-01-05 log holds 50 pages (edit-range
counterexample target). -/
def dbC7 : Store :=
  { emptyStore with
    users := [mkUser 1 100 "A" 50 0],
    reading_logs := [⟨1, 1, toOrdinal ⟨2026, 1, 5⟩, 50⟩],
    next_user_id := 2, next_log_id := 2 }

/-- 21 announcements; the oldest (id 1) is the only unsent one, so it falls
outside the 20-newest page the dispatcher reads. -/
def dbC8 : Store :=
  { emptyStore with
    users := [mkUser 1 100 "A" 0 0],
    announcements := (List.range 21).map (fun i =>
      mkAnn (i + 1) "m" ((i : Int) + 1) (if i == 0 then none else some 0)),
    next_user_id := 2, next_ann_id := 22 }

/-- One already-sent announcement and one user. -/
def dbW9 : Store :=
  { emptyStore with
    users := [mkUser 1 100 "A" 0 0],
    announcements := [mkAnn 1 "hello" 1 (some 3)],
    next_user_id := 2, next_ann_id := 2 }

def dbW10 : Store :=
  { emptyStore with users := [mkUser 1 100 "A" 0 0], next_user_id := 2 }

def ucW10 : UserCreate :=
  { telegram_id := 100, username := none, first_name := "A", last_name := none }

/-! ## Helper lemmas: page sums under list edits -/

theorem sumPagesFor_cons (uid : Nat) (l : ReadingLog) (ls : List ReadingLog) :
    sumPagesFor uid (l :: ls) =
      (if l.user_id == uid then l.pages else 0) + sumPagesFor uid ls := by
  by_cases h : l.user_id = uid <;> simp [sumPagesFor, List.filter_cons, h]

theorem sumPagesFor_append (uid : Nat) (logs : List ReadingLog) (l : ReadingLog) :
    sumPagesFor uid (logs ++ [l]) =
      sumPagesFor uid logs + (if l.user_id == uid then l.pages else 0) := by
  by_cases h : l.user_id = uid <;>
    simp [sumPagesFor, List.filter_append, List.filter_cons, h]

theorem sumPagesFor_replaceFirst (uid : Nat) (pred : ReadingLog → Bool) (P : Int) :
    ∀ (logs : List ReadingLog) (l0 : ReadingLog), logs.find? pred = some l0 →
      sumPagesFor uid (replaceFirst pred (fun l => { l with pages := P }) logs) =
        sumPagesFor uid logs + (if l0.user_id == uid then P - l0.pages else 0) := by
  intro logs
  induction logs with
  | nil => intro l0 h; simp at h
  | cons l ls ih =>
    intro l0 h
    cases hp : pred l with
    | true =>
      rw [List.find?_cons_of_pos _ hp] at h
      injection h with h
      subst h
      by_cases hb : l.user_id = uid <;>
        simp [replaceFirst, hp, sumPagesFor_cons, hb] <;> omega
    | false =>
      rw [List.find?_cons_of_neg _ (by simp [hp])] at h
      simp [replaceFirst, hp, sumPagesFor_cons, ih l0 h]
      omega

theorem sumPagesFor_eraseP (uid : Nat) (pred : ReadingLog → Bool) :
    ∀ (logs : List ReadingLog) (l0 : ReadingLog), logs.find? pred = some l0 →
      sumPagesFor uid (logs.eraseP pred) =
        sumPagesFor uid logs - (if l0.user_id == uid then l0.pages else 0) := by
  intro logs
  induction logs with
  | nil => intro l0 h; simp at h
  | cons l ls ih =>
    intro l0 h
    cases hp : pred l with
    | true =>
      rw [List.find?_cons_of_pos _ hp] at h
      injection h with h
      subst h
      by_cases hb : l.user_id = uid <;>
        simp [List.eraseP_cons_of_pos, hp, sumPagesFor_cons, hb] <;> omega
    | false =>
      rw [List.find?_cons_of_neg _ (by simp [hp])] at h
      simp [List.eraseP_cons_of_neg, hp, sumPagesFor_cons, ih l0 h]
      omega

theorem totals_create (db : Store) (d p tid now : Int) (hinv : TotalsInv db) :
    TotalsInv (create_reading_log db d p tid now) := by
  unfold create_reading_log
  cases hf : db.users.find? (fun u => u.telegram_id == tid) with
  | none => exact hinv
  | some u0 =>
    intro u' hu'
    obtain ⟨u, hu, rfl⟩ := List.mem_map.mp hu'
    by_cases hid : u.id = u0.id
    · simp only [hid, beq_self_eq_true, if_true]
      rw [sumPagesFor_append]
      simp [hid, hinv u hu]
    · simp only [beq_iff_eq, hid, if_false]
      rw [sumPagesFor_append]
      simp [hid, hinv u hu, Ne.symm hid]

theorem totals_update (db : Store) (d p tid : Int) (hinv : TotalsInv db) :
    TotalsInv (update_reading_log db d p tid) := by
  unfold update_reading_log
  split
  · exact hinv
  next u0 hf =>
    split
    · exact hinv
    next l0 hl =>
      have hl0 : l0.user_id = u0.id := by
        have := List.find?_some hl
        simp only [Bool.and_eq_true, beq_iff_eq] at this
        exact this.1
      intro u' hu'
      obtain ⟨u, hu, rfl⟩ := List.mem_map.mp hu'
      have hu2 := hinv u hu
      by_cases hid : u.id = u0.id
      · simp only [hid, beq_self_eq_true, if_true]
        rw [sumPagesFor_replaceFirst u0.id _ p db.reading_logs l0 hl]
        rw [hid] at hu2
        simp [hl0, hu2]
        omega
      · simp only [beq_iff_eq, hid, if_false]
        rw [sumPagesFor_replaceFirst u.id _ p db.reading_logs l0 hl]
        have hne : ¬ l0.user_id = u.id := by rw [hl0]; exact Ne.symm hid
        simp [hne, hu2]

theorem totals_remove (db : Store) (d tid : Int) (hinv : TotalsInv db) :
    TotalsInv (delete_reading_log db d tid) := by
  unfold delete_reading_log
  split
  · exact hinv
  next u0 hf =>
    split
    · exact hinv
    next l0 hl =>
      have hl0 : l0.user_id = u0.id := by
        have := List.find?_some hl
        simp only [Bool.and_eq_true, beq_iff_eq] at this
        exact this.1
      intro u' hu'
      obtain ⟨u, hu, rfl⟩ := List.mem_map.mp hu'
      have hu2 := hinv u hu
      by_cases hid : u.id = u0.id
      · simp only [hid, beq_self_eq_true, if_true]
        rw [sumPagesFor_eraseP u0.id _ db.reading_logs l0 hl]
        rw [hid] at hu2
        simp [hl0, hu2]
      · simp only [beq_iff_eq, hid, if_false]
        rw [sumPagesFor_eraseP u.id _ db.reading_logs l0 hl]
        have hne : ¬ l0.user_id = u.id := by rw [hl0]; exact Ne.symm hid
        simp [hne, hu2]

theorem totals_applyLogOp (db : Store) (op : LogOp) (hinv : TotalsInv db) :
    TotalsInv (applyLogOp db op) := by
  cases op with
  | create tid d p now => exact totals_create db d p tid now hinv
  | update tid d p => exact totals_update db d p tid hinv
  | remove tid d => exact totals_remove db d tid hinv

theorem totals_applyLogOps (ops : List LogOp) :
    ∀ (db : Store), TotalsInv db → TotalsInv (applyLogOps db ops) := by
  induction ops with
  | nil => intro db h; exact h
  | cons op rest ih =>
    intro db h
    exact ih (applyLogOp db op) (totals_applyLogOp db op h)

/-- C1: after any sequence of reading-log create, edit and delete operations
applied to a store in which every user's running total matches their log
pages (in particular any store of freshly created users), every user's
`total_pages` equals the sum of that user's remaining log pages. -/
theorem total_pages_invariant (ops : List LogOp) (db : Store)
    (hinv : TotalsInv db) :
    ∀ u ∈ (applyLogOps db ops).users,
      u.total_pages = sumPagesFor u.id (applyLogOps db ops).reading_logs :=
  totals_applyLogOps ops db hinv

/-- C1 witness: a fresh one-user store, then create two logs on the same
date (30 and 20 pages), edit that date (first log, to 7), delete that date
(first log); the remaining user row holds 20 total pages, matching its one
remaining 20-page log. -/
theorem total_pages_invariant_witness :
    (mkUser 1 100 "A" 20 0).total_pages
      = sumPagesFor (mkUser 1 100 "A" 20 0).id (applyLogOps dbW1 opsW1).reading_logs :=
  total_pages_invariant opsW1 dbW1 (by unfold TotalsInv; decide)
    (mkUser 1 100 "A" 20 0) (by decide)

/-! ## Week window (C2) -/

/-- C2: for every date (as its ordinal), the week window starts
`(weekday(today) - 5) mod 7` days before today, ends six days after the
start, the start is a Saturday (weekday 5) at most six days in the past
(today itself when today is a Saturday), and Wednesday 2026-01-07 yields
the span 2026-01-03 .. 2026-01-09. -/
theorem week_window_correct (today : Int) :
    (get_week_saturday_to_friday today).1 = today - (pyWeekday today - 5) % 7
    ∧ (get_week_saturday_to_friday today).2 = (get_week_saturday_to_friday today).1 + 6
    ∧ pyWeekday (get_week_saturday_to_friday today).1 = 5
    ∧ (get_week_saturday_to_friday today).1 ≤ today
    ∧ today < (get_week_saturday_to_friday today).1 + 7
    ∧ (pyWeekday today = 5 → (get_week_saturday_to_friday today).1 = today)
    ∧ get_week_saturday_to_friday (toOrdinal ⟨2026, 1, 7⟩)
        = (toOrdinal ⟨2026, 1, 3⟩, toOrdinal ⟨2026, 1, 9⟩)
    ∧ pyWeekday (toOrdinal ⟨2026, 1, 7⟩) = 2 := by
  refine ⟨rfl, rfl, ?_, ?_, ?_, ?_, by decide, by decide⟩ <;>
    simp only [get_week_saturday_to_friday, pyWeekday] <;> intros <;> omega

/-- C2 witness: Saturday 2026-01-10 is its own week start. -/
theorem week_window_correct_witness :
    pyWeekday (toOrdinal ⟨2026, 1, 10⟩) = 5 ∧
      (get_week_saturday_to_friday (toOrdinal ⟨2026, 1, 10⟩)).1
        = toOrdinal ⟨2026, 1, 10⟩ :=
  ⟨by decide,
   (week_window_correct (toOrdinal ⟨2026, 1, 10⟩)).2.2.2.2.2.1 (by decide)⟩

/-! ## Month window (C3) -/

theorem monthLength_bounds (y : Int) (m : Nat) (h1 : 1 ≤ m) (h2 : m ≤ 12) :
    28 ≤ monthLength y m ∧ monthLength y m ≤ 31 := by
  unfold monthLength
  split
  · split <;> omega
  · split <;> omega

theorem addDays_succ (n : Nat) (c : CivilDate) :
    addDays (n + 1) c = addDays n (nextDay c) := rfl

theorem addDays_add (a b : Nat) (c : CivilDate) :
    addDays (b + a) c = addDays b (addDays a c) :=
  Function.iterate_add_apply nextDay b a c

theorem addDays_within (n : Nat) :
    ∀ (y : Int) (m d : Nat), 0 < d → d + n ≤ monthLength y m →
      addDays n ⟨y, m, d⟩ = ⟨y, m, d + n⟩ := by
  induction n with
  | zero => intro y m d _ _; rfl
  | succ k ih =>
    intro y m d hd hle
    rw [addDays_succ]
    have h2 : nextDay ⟨y, m, d⟩ = ⟨y, m, d + 1⟩ := by
      have hlt : d < monthLength y m := by omega
      simp [nextDay, hlt]
    rw [h2, ih y m (d + 1) (by omega) (by omega)]
    have : d + 1 + k = d + (k + 1) := by omega
    rw [this]

theorem nextDay_month_end (y : Int) (m : Nat) :
    nextDay ⟨y, m, monthLength y m⟩ =
      if m < 12 then (⟨y, m + 1, 1⟩ : CivilDate) else ⟨y + 1, 1, 1⟩ := by
  simp [nextDay]

theorem addDays32_first (y : Int) (m : Nat) (h1 : 1 ≤ m) (h2 : m ≤ 12) :
    addDays 32 ⟨y, m, 1⟩ =
      if m < 12 then (⟨y, m + 1, 33 - monthLength y m⟩ : CivilDate)
      else ⟨y + 1, 1, 33 - monthLength y m⟩ := by
  obtain ⟨h28, h31⟩ := monthLength_bounds y m h1 h2
  have hsplit : (32 : Nat) = (33 - monthLength y m) + (monthLength y m - 1) := by
    omega
  rw [hsplit, addDays_add]
  have hstep1 : addDays (monthLength y m - 1) ⟨y, m, 1⟩ = ⟨y, m, monthLength y m⟩ := by
    rw [addDays_within (monthLength y m - 1) y m 1 (by omega) (by omega)]
    have : 1 + (monthLength y m - 1) = monthLength y m := by omega
    rw [this]
  rw [hstep1]
  have hstep2 : (33 - monthLength y m) = (32 - monthLength y m) + 1 := by omega
  rw [hstep2, addDays_succ, nextDay_month_end y m]
  by_cases hm : m < 12
  · simp only [hm, if_true]
    obtain ⟨h28n, _⟩ := monthLength_bounds y (m + 1) (by omega) (by omega)
    rw [addDays_within (32 - monthLength y m) y (m + 1) 1 (by omega) (by omega)]
    congr 1
    omega
  · simp only [hm, if_false]
    obtain ⟨h28n, _⟩ := monthLength_bounds (y + 1) 1 (by omega) (by omega)
    rw [addDays_within (32 - monthLength y m) (y + 1) 1 1 (by omega) (by omega)]
    congr 1
    omega

set_option maxRecDepth 4000 in
/-- C3: for every date whose month field is valid, the month window is the
first through the last day of that date's month; in particular February
2026 ends on the 28th and February 2024 (leap year) on the 29th. -/
theorem month_range_correct :
    (∀ dt : CivilDate, 1 ≤ dt.month → dt.month ≤ 12 →
      get_month_range dt =
        (⟨dt.year, dt.month, 1⟩, ⟨dt.year, dt.month, monthLength dt.year dt.month⟩))
    ∧ get_month_range ⟨2026, 2, 15⟩ = (⟨2026, 2, 1⟩, ⟨2026, 2, 28⟩)
    ∧ get_month_range ⟨2024, 2, 15⟩ = (⟨2024, 2, 1⟩, ⟨2024, 2, 29⟩) := by
  refine ⟨?_, by decide, by decide⟩
  intro dt h1 h2
  obtain ⟨y, m, d⟩ := dt
  simp only at h1 h2
  simp only [get_month_range]
  rw [addDays32_first y m h1 h2]
  by_cases hm : m < 12
  · simp only [hm, if_true]
    have hm1 : 1 < m + 1 := by omega
    simp [prevDay, hm1]
  · have hm12 : m = 12 := by omega
    subst hm12
    simp only [hm, if_false]
    simp [prevDay, monthLength]

/-- C3 witness: May 2026 runs from the 1st to the 31st. -/
theorem month_range_correct_witness :
    get_month_range ⟨2026, 5, 20⟩ = (⟨2026, 5, 1⟩, ⟨2026, 5, 31⟩) := by
  have h := month_range_correct.1 ⟨2026, 5, 20⟩ (by decide) (by decide)
  exact h.trans (by decide)

/-! ## Reports and leaderboard (C4, C5) -/

theorem enumFrom_map_fst_eq_range {α : Type} :
    ∀ (l : List α) (n : Nat), (l.enumFrom n).map Prod.fst = List.range' n l.length := by
  intro l
  induction l with
  | nil => intro n; rfl
  | cons x xs ih => intro n; simp [List.enumFrom, List.range', ih (n + 1)]

/-- C4: in every weekly report, a row is flagged winner exactly when its
windowed page sum is at least 500; on the concrete store dbC4 the user with
exactly 500 pages in the week of 2026-01-07 is a winner and the user with
499 is not. -/
theorem weekly_winner_flag :
    (∀ (db : Store) (today : Int) (r : ReportRow), r ∈ weekly_report db today →
      (r.winner = true ↔ 500 ≤ r.pages))
    ∧ (weekly_report dbC4 (toOrdinal ⟨2026, 1, 7⟩)).map
        (fun r => (r.name, r.pages, r.winner)) = [("P", 500, true), ("Q", 499, false)] := by
  constructor
  · intro db today r hr
    unfold weekly_report at hr
    obtain ⟨x, hx, rfl⟩ := List.mem_map.mp hr
    simp [decide_eq_true_eq]
  · decide

/-- C4 witness: the rank-1 row of the dbC4 report (exactly 500 pages) is in
the report, and by the theorem its winner flag is equivalent to the
threshold test. -/
theorem weekly_winner_flag_witness :
    (({ rank := 1, name := "P", pages := 500, winner := true } : ReportRow).winner
        = true)
      ↔ (500 : Int) ≤ 500 :=
  weekly_winner_flag.1 dbC4 (toOrdinal ⟨2026, 1, 7⟩) _ (by decide)

/-- C5: leaderboard rank values are exactly 1..N in sorted-list position
order, with no shared ranks; on dbC5 (sums A:120, B:200, C:200) with
limit 10, B and C both appear ranked above A. -/
theorem leaderboard_ranks_sequential :
    (∀ (db : Store) (period : String) (limit : Nat) (today : CivilDate),
      (leaderboard db period limit today).map (fun r => r.rank)
        = List.range' 1 (leaderboard db period limit today).length)
    ∧ (leaderboard dbC5 "all" 10 ⟨2026, 1, 7⟩).map (fun r => (r.rank, r.name, r.pages))
        = [(1, "B", 200), (2, "C", 200), (3, "A", 120)] := by
  constructor
  · intro db period limit today
    unfold leaderboard
    rw [List.map_map, List.length_map]
    have : ∀ (l : List (Nat × String × Int × Int)),
        l.map ((fun r : LbRow => r.rank) ∘ (fun x =>
          ({ rank := x.1, name := x.2.1, pages := x.2.2.1, books := x.2.2.2 } : LbRow)))
          = l.map Prod.fst := by
      intro l
      induction l with
      | nil => rfl
      | cons x xs ih => simp [ih]
    rw [this, enumFrom_map_fst_eq_range, List.enumFrom_length]
  · decide

/-! ## Stats (C6) -/

/-- C6: `get_stats` never divides by zero: with zero users the weekly growth
is 0 (not an error), and with a positive user count it equals
new-users-in-trailing-7-days / total-users * 100. -/
theorem stats_growth_guarded (db : Store) (now : Int) :
    (db.users.length = 0 → (get_stats db now).weekly_growth = 0)
    ∧ (0 < db.users.length →
        (get_stats db now).weekly_growth =
          ((db.users.filter (fun u => now - 7 ≤ u.join_date)).length : Rat)
            / (db.users.length : Rat) * 100) := by
  constructor
  · intro h
    simp [get_stats, h]
  · intro h
    simp [get_stats, h]

/-- C6 witness: the empty store reports 0% weekly growth. -/
theorem stats_growth_guarded_witness : (get_stats emptyStore 0).weekly_growth = 0 :=
  (stats_growth_guarded emptyStore 0).1 rfl

/-! ## Front-end page-range validation (C7) -/

/-- C7 counterexample: the edit command with the out-of-range page count 501
is not rejected: it emits the success reply and issues the update API call,
and applying that call to a store holding a 50-page log for 2026-01-05
changes the log to 501 pages and the running total from 50 to 501 — a state
change with no boundary rejection. -/
theorem edit_range_unchecked_cex :
    edit_command 100 ["05.01.2026", "501"] =
      { replies := [Reply.edited ⟨2026, 1, 5⟩ 501],
        calls := [ApiCall.putReadingLog 100 ⟨2026, 1, 5⟩ 501] }
    ∧ (update_reading_log dbC7 (toOrdinal ⟨2026, 1, 5⟩) 501 100).users.map
        (fun u => u.total_pages) = [501]
    ∧ (update_reading_log dbC7 (toOrdinal ⟨2026, 1, 5⟩) 501 100).reading_logs.map
        (fun l => l.pages) = [501]
    ∧ dbC7.users.map (fun u => u.total_pages) = [50] := by
  refine ⟨by decide, by decide, by decide, by decide⟩

/-- C7 amended: the add command rejects a page count outside [1,500] with a
user-facing message and issues no API call (in both its one- and
two-argument forms), but the edit command performs no page-range validation
and forwards any parsed integer page count to the update API call. -/
theorem page_range_validation_amended :
    (∀ (tid p : Int) (s : String) (now : CivilDate), strToInt? s = some p →
      (p ≤ 0 ∨ 500 < p) →
      add_command tid [s] now = { replies := [Reply.rangeErr], calls := [] })
    ∧ (∀ (tid p : Int) (ds s : String) (d : CivilDate) (now : CivilDate),
        parse_date ds = some d → strToInt? s = some p → (p ≤ 0 ∨ 500 < p) →
        add_command tid [ds, s] now = { replies := [Reply.rangeErr], calls := [] })
    ∧ (∀ (tid p : Int) (ds s : String) (d : CivilDate),
        parse_date ds = some d → strToInt? s = some p →
        edit_command tid [ds, s] =
          { replies := [Reply.edited d p],
            calls := [ApiCall.putReadingLog tid d p] }) := by
  refine ⟨?_, ?_, ?_⟩
  · intro tid p s now hs hout
    have hb : (decide (p ≤ 0) || decide (500 < p)) = true := by
      rcases hout with h | h <;> simp [h]
    simp [add_command, hs, addWithDate, hb]
  · intro tid p ds s d now hd hs hout
    have hb : (decide (p ≤ 0) || decide (500 < p)) = true := by
      rcases hout with h | h <;> simp [h]
    simp [add_command, hd, hs, addWithDate, hb]
  · intro tid p ds s d hd hs
    simp [edit_command, hd, hs]

/-- C7 witness: `/add 501` is rejected with the range message and no API
call. -/
theorem page_range_validation_amended_witness :
    add_command 100 ["501"] ⟨2026, 1, 7⟩ = { replies := [Reply.rangeErr], calls := [] } :=
  page_range_validation_amended.1 100 501 "501" ⟨2026, 1, 7⟩ (by decide)
    (Or.inr (by decide))

/-! ## Announcement dispatch (C8, C9) -/

theorem list_users_mark (se st : String) (li : Nat) (db : Store) (i : Nat)
    (n : Int) :
    list_users se st li (mark_announcement_sent db i n) = list_users se st li db := rfl

theorem announce_loop (now : Int) :
    ∀ (anns : List AnnOut) (s : Store) (evs : List SendEvent),
      anns.foldl (announceStep now) (evs, s) =
        (evs ++ (anns.filter (fun a => a.sent_at.isNone)).bind
          (fun a => SendEvent.group a.id a.message ::
            (list_users "" "" 100 s).map
              (fun u => SendEvent.user a.id u.telegram_id a.message)),
         (anns.filter (fun a => a.sent_at.isNone)).foldl
           (fun t a => mark_announcement_sent t a.id now) s) := by
  intro anns
  induction anns with
  | nil => intro s evs; simp
  | cons a rest ih =>
    intro s evs
    rw [List.foldl_cons]
    cases ha : a.sent_at.isNone with
    | true =>
      have step : announceStep now (evs, s) a =
          (evs ++ (SendEvent.group a.id a.message ::
            (list_users "" "" 100 s).map
              (fun u => SendEvent.user a.id u.telegram_id a.message)),
           mark_announcement_sent s a.id now) := by
        simp [announceStep, ha]
      rw [step, ih]
      simp only [list_users_mark]
      simp [List.filter_cons, ha, List.cons_bind, List.append_assoc]
    | false =>
      have step : announceStep now (evs, s) a = (evs, s) := by
        simp [announceStep, ha]
      rw [step, ih]
      simp [List.filter_cons, ha]

/-- C8 counterexample: in dbC8 the oldest announcement (id 1) is unsent, yet
a dispatch tick sends nothing at all and leaves it unmarked, because the job
only reads the 20 most recently created announcements — so an unsent
announcement can be skipped, contradicting the claim. -/
theorem announcement_limit_cex :
    (∃ a ∈ dbC8.announcements, a.id = 1 ∧ a.sent_at = none)
    ∧ (send_announcements dbC8 5).1 = []
    ∧ ((send_announcements dbC8 5).2.announcements.find? (fun a => a.id == 1)).map
        (fun a => a.sent_at) = some none := by
  refine ⟨by decide, by decide, by decide⟩

/-- C8 amended: on every dispatch tick, the announcement job reads the 20
most recently created announcements; for each of those that is unsent — in
that order — it sends the message to the fixed broadcast destination and
then to each of the (at most 100 highest-id) users returned by the user
listing, and marks that announcement sent. Unsent announcements outside the
newest 20 and users beyond that page are not dispatched to. -/
theorem announcement_dispatch_amended (db : Store) (now : Int) :
    (send_announcements db now).1 =
      ((list_announcements db).filter (fun a => a.sent_at.isNone)).bind
        (fun a => SendEvent.group a.id a.message ::
          (list_users "" "" 100 db).map
            (fun u => SendEvent.user a.id u.telegram_id a.message))
    ∧ (send_announcements db now).2 =
        ((list_announcements db).filter (fun a => a.sent_at.isNone)).foldl
          (fun t a => mark_announcement_sent t a.id now) db := by
  unfold send_announcements
  rw [announce_loop now (list_announcements db) db []]
  exact ⟨by simp, rfl⟩

theorem insertByDesc_perm {α : Type} (key : α → Int) (x : α) (l : List α) :
    List.Perm (insertByDesc key x l) (x :: l) := by
  induction l with
  | nil => exact List.Perm.refl _
  | cons y ys ih =>
    unfold insertByDesc
    by_cases h : key x < key y
    · simp only [h, if_true]
      exact (ih.cons y).trans (List.Perm.swap x y ys)
    · simp only [h, if_false]
      exact List.Perm.refl _

theorem sortByDesc_perm {α : Type} (key : α → Int) :
    ∀ l : List α, List.Perm (sortByDesc key l) l := by
  intro l
  induction l with
  | nil => exact List.Perm.refl _
  | cons x xs ih =>
    unfold sortByDesc
    exact (insertByDesc_perm key x (sortByDesc key xs)).trans (ih.cons x)

theorem mem_list_announcements (db : Store) (b : AnnOut)
    (hb : b ∈ list_announcements db) :
    ∃ a0 ∈ db.announcements, b.id = a0.id ∧ b.sent_at = a0.sent_at := by
  unfold list_announcements at hb
  obtain ⟨a0, ha0, rfl⟩ := List.mem_map.mp hb
  have h2 : a0 ∈ sortByDesc (fun a => a.created_at) db.announcements :=
    List.mem_of_mem_take ha0
  exact ⟨a0, ((sortByDesc_perm _ _).mem_iff).mp h2, rfl, rfl⟩

/-- C9: an announcement whose sent time is already set is never sent again
by a dispatch tick: no send event of the tick carries its id (announcement
ids are the table's primary key, hence pairwise distinct). -/
theorem sent_announcement_not_redispatched (db : Store) (now : Int)
    (a : Announcement) (t : Int) (ha : a ∈ db.announcements)
    (hs : a.sent_at = some t)
    (hnd : (db.announcements.map (fun x => x.id)).Nodup) :
    (send_announcements db now).1.filter (fun e => sendEventAnnId e == a.id) = [] := by
  unfold send_announcements
  rw [announce_loop now (list_announcements db) db []]
  simp only [List.nil_append]
  rw [List.filter_eq_nil]
  intro e he
  obtain ⟨b, hb, heb⟩ := List.mem_bind.mp he
  obtain ⟨hbl, hbnone⟩ := List.mem_filter.mp hb
  have hbnone2 : b.sent_at = none := Option.isNone_iff_eq_none.mp hbnone
  obtain ⟨a0, ha0, hid0, hsent0⟩ := mem_list_announcements db b hbl
  have hide : sendEventAnnId e = b.id := by
    rcases List.mem_cons.mp heb with rfl | hmem
    · rfl
    · obtain ⟨u, _, rfl⟩ := List.mem_map.mp hmem
      rfl
  intro hcontra
  rw [hide] at hcontra
  have hba : b.id = a.id := by simpa using hcontra
  have haa : a0 = a :=
    List.inj_on_of_nodup_map hnd ha0 ha (by rw [hid0] at hba; exact hba)
  rw [haa] at hsent0
  rw [hs] at hsent0
  rw [hbnone2] at hsent0
  exact Option.noConfusion hsent0

/-- C9 witness: in a store whose single announcement was sent at time 3, a
tick at time 7 produces no send event carrying its id. -/
theorem sent_announcement_not_redispatched_witness :
    (send_announcements dbW9 7).1.filter (fun e => sendEventAnnId e == 1) = [] :=
  sent_announcement_not_redispatched dbW9 7 (mkAnn 1 "hello" 1 (some 3)) 3
    (by decide) rfl (by decide)

/-! ## User creation idempotence (C10) -/

/-- C10: when the store already holds a user with the requested telegram id,
`create_user` returns that (first matching) user and leaves the store
completely unchanged. -/
theorem create_user_idempotent (db : Store) (uc : UserCreate) (now : Int)
    (h : ∃ u ∈ db.users, u.telegram_id = uc.telegram_id) :
    (create_user db uc now).2 = db
    ∧ (create_user db uc now).1 ∈ db.users
    ∧ (create_user db uc now).1.telegram_id = uc.telegram_id := by
  obtain ⟨u, hu, ht⟩ := h
  cases hf : db.users.find? (fun x => x.telegram_id == uc.telegram_id) with
  | none =>
    exfalso
    have := List.find?_eq_none.mp hf u hu
    simp [ht] at this
  | some v =>
    have hv1 : v ∈ db.users := List.mem_of_find?_eq_some hf
    have hv2 : v.telegram_id = uc.telegram_id := by
      have := List.find?_some hf
      simpa using this
    unfold create_user
    rw [hf]
    exact ⟨rfl, hv1, hv2⟩

/-- C10 witness: creating the already-present telegram id 100 in dbW10
returns the stored user and changes nothing. -/
theorem create_user_idempotent_witness :
    (create_user dbW10 ucW10 9).2 = dbW10
    ∧ (create_user dbW10 ucW10 9).1 ∈ dbW10.users
    ∧ (create_user dbW10 ucW10 9).1.telegram_id = ucW10.telegram_id :=
  create_user_idempotent dbW10 ucW10 9 ⟨mkUser 1 100 "A" 0 0, by decide, rfl⟩
